import Mathlib

/-!
# Verification of the `verse-studio` iris background components

Shallow embedding of the two near-duplicate React/three.js components
(`src/components/ThreeIrisBG.jsx`, the unnamed `ThreeIris.jsx` variant) and
proofs of the specification's claims about them.

Real-valued GLSL/JS arithmetic is embedded over `ℝ`.  Where a claim is about
IEEE floating point specifically (claim C10), the rounding of each primitive
operation is abstracted as an arbitrary function `ℝ → ℝ`, which soundly models
the fact that every IEEE operation is a deterministic function of the exact
real value of its operands.
-/

namespace VerseStudio

/-- A 3-component vector, standing for GLSL `vec3` / three.js `Vector3`
(components embedded as reals). -/
structure Vec3 where
  x : ℝ
  y : ℝ
  z : ℝ

instance : Inhabited Vec3 := ⟨⟨0, 0, 0⟩⟩

noncomputable section

/-- GLSL `clamp(x, lo, hi) = min(max(x, lo), hi)`. -/
def clamp (x lo hi : ℝ) : ℝ := min (max x lo) hi

/-- GLSL `smoothstep(e0, e1, x)`: `t = clamp((x-e0)/(e1-e0), 0, 1); t*t*(3-2t)`.
This is the formula the GPU evaluates; it is also well defined for `e0 > e1`
(as used for the alpha edge `smoothstep(0.99, 0.96, r)`). -/
def smoothstep (e0 e1 x : ℝ) : ℝ :=
  let t := clamp ((x - e0) / (e1 - e0)) 0 1
  t * t * (3 - 2 * t)

/-- GLSL `mix(a, b, t) = a*(1-t) + b*t` (scalar). -/
def mix (a b t : ℝ) : ℝ := a * (1 - t) + b * t

/-- Componentwise `mix` on `vec3`. -/
def mixV (u v : Vec3) (t : ℝ) : Vec3 :=
  ⟨mix u.x v.x t, mix u.y v.y t, mix u.z v.z t⟩

/-- `vec3 * scalar` (componentwise scale, as in `base *= mix(0.2,1.0,vignette)`). -/
def scaleV (v : Vec3) (s : ℝ) : Vec3 :=
  ⟨v.x * s, v.y * s, v.z * s⟩

/-- The spec's `lerp(a, b, t) = a + (b - a)*t` (standard linear interpolation,
per the glossary's "exponential smoothing" convention `v += (target - v) * k`). -/
def lerp (a b t : ℝ) : ℝ := a + (b - a) * t

/-- Componentwise `lerp` on colors, used by the spec's reference pipeline. -/
def lerpV (u v : Vec3) (t : ℝ) : Vec3 :=
  ⟨lerp u.x v.x t, lerp u.y v.y t, lerp u.z v.z t⟩

/-- GLSL `atan(y, x)` (two-argument arctangent), as used by `toPolar`. -/
def atan2 (y x : ℝ) : ℝ :=
  if 0 < x then Real.arctan (y / x)
  else if x < 0 then
    (if 0 ≤ y then Real.arctan (y / x) + Real.pi else Real.arctan (y / x) - Real.pi)
  else
    (if 0 < y then Real.pi / 2 else if y < 0 then -(Real.pi / 2) else 0)

/-- The shader's `toPolar`: `r = length(p)`, `a = atan(p.y, p.x)`. -/
def toPolar (p : ℝ × ℝ) : ℝ × ℝ :=
  (Real.sqrt (p.1 ^ 2 + p.2 ^ 2), atan2 p.2 p.1)

/-- The fragment shader of `makeIrisMaterial` (identical in both source
variants), embedded line by line: input `vUv ∈ [0,1]²`, accumulated time `t`,
uniform colors `primary`, `secondary`, `glint`; output `(rgb, alpha)`. -/
def shaderFrag (t : ℝ) (primary secondary glint : Vec3) (vUv : ℝ × ℝ) : Vec3 × ℝ :=
  let uv : ℝ × ℝ := (vUv.1 * 2 - 1, vUv.2 * 2 - 1)
  let polar := toPolar uv
  let r := polar.1
  let a := polar.2
  let stripes := Real.sin (a * 32 + r * 24 - t * 0.6) * 0.5 + 0.5
  let fibers := Real.sin (a * 96 - t * 0.9) * 0.5 + 0.5
  let base := mixV primary secondary (stripes * 0.7 + fibers * 0.3)
  let glintMask := smoothstep 0.68 0.86 r * (0.7 + 0.3 * Real.sin (a * 6 + t * 0.7))
  let base1 := mixV base glint (glintMask * 0.08)
  let vignette := smoothstep 0 0.1 r
  let base2 := scaleV base1 (mix 0.2 1 vignette)
  let alpha := smoothstep 0.99 0.96 r
  (base2, alpha)

/-- The spec's reference per-pixel color function (§4.4), written from the
spec's own bullet list: `p = uv*2-1`, `(r,a) = (|p|, atan2(p.y,p.x))`,
`stripes = 0.5+0.5*sin(32a+24r-0.6t)`, `fibers = 0.5+0.5*sin(96a-0.9t)`,
`base = lerp(primary, secondary, 0.7*stripes+0.3*fibers)`,
`base = lerp(base, glint, 0.08*glintMask)`, `base *= lerp(0.2,1,vignette)`,
`alpha = smoothstep(0.99,0.96,r)`. -/
def specFrag (t : ℝ) (primary secondary glint : Vec3) (uv01 : ℝ × ℝ) : Vec3 × ℝ :=
  let p : ℝ × ℝ := (uv01.1 * 2 - 1, uv01.2 * 2 - 1)
  let polar := toPolar p
  let r := polar.1
  let a := polar.2
  let stripes := 0.5 + 0.5 * Real.sin (32 * a + 24 * r - 0.6 * t)
  let fibers := 0.5 + 0.5 * Real.sin (96 * a - 0.9 * t)
  let base := lerpV primary secondary (0.7 * stripes + 0.3 * fibers)
  let glintMask := smoothstep 0.68 0.86 r * (0.7 + 0.3 * Real.sin (6 * a + 0.7 * t))
  let base1 := lerpV base glint (0.08 * glintMask)
  let vignette := smoothstep 0 0.1 r
  let base2 := scaleV base1 (lerp 0.2 1 vignette)
  let alpha := smoothstep 0.99 0.96 r
  (base2, alpha)

/-- The shader's alpha channel as a function of the polar radius `r`:
`alpha = smoothstep(0.99, 0.96, r)`. -/
def alphaOf (r : ℝ) : ℝ := smoothstep 0.99 0.96 r

/-- One ring of the Ring Geometry Builder: its radius and its polyline. -/
structure RingSpec where
  radius : ℝ
  points : List Vec3

instance : Inhabited RingSpec := ⟨⟨0, []⟩⟩

/-- The body of the ring loop in `NeuralRings`'s `rings` `useMemo` (identical
in both variants): radius `R = 0.9 + i * 0.22`, and 181 points
`(cos t * R, sin t * R, -0.2)` for `t = (j / 180) * Math.PI * 2`,
`j = 0, …, 180` (`steps = 180`, loop condition `j <= steps`). -/
def mkRing (i : ℕ) : RingSpec :=
  let R : ℝ := 0.9 + (i : ℝ) * 0.22
  { radius := R
    points := (List.range 181).map fun (j : ℕ) =>
      let t : ℝ := ((j : ℝ) / 180) * Real.pi * 2
      ⟨Real.cos t * R, Real.sin t * R, -0.2⟩ }

/-- The `rings` `useMemo` of `NeuralRings`: `ringCount = 3` rings. -/
def buildRings : List RingSpec := (List.range 3).map mkRing

end

/-- The per-frame mutable scene state: the shader's `u_time` uniform, the
ring assembly's rotation, and the lens assembly's rotation.  The frame-driver
arithmetic in both sources is plain field arithmetic, embedded over `ℚ` so the
model is exactly computable. -/
structure SceneState where
  time : ℚ
  ringRotZ : ℚ
  lensRotX : ℚ
  lensRotY : ℚ
  lensRotZ : ℚ
  deriving DecidableEq, Repr

/-- The all-zero initial state (fresh uniforms and rotations). -/
def SceneState.init : SceneState := ⟨0, 0, 0, 0, 0⟩

/-- A pointer sample `(x, y)`, each nominally in `[-1, 1]`. -/
abbrev Pointer := ℚ × ℚ

/-- `NeuralRings`'s `useFrame` callback in `ThreeIrisBG.jsx` (variant A):
`if (!reduceMotion && group.current) group.current.rotation.z += dt * 0.03`. -/
def ringsFrameA (reduceMotion : Bool) (dt : ℚ) (s : SceneState) : SceneState :=
  if !reduceMotion then { s with ringRotZ := s.ringRotZ + dt * 0.03 } else s

/-- `NeuralRings`'s `useFrame` callback in the `ThreeIris.jsx` variant (B):
`if (reduceMotion) return; ... rotation.z += dt * 0.03`. -/
def ringsFrameB (reduceMotion : Bool) (dt : ℚ) (s : SceneState) : SceneState :=
  if reduceMotion then s
  else { s with ringRotZ := s.ringRotZ + dt * 0.03 }

/-- `IrisLens`'s `useFrame` callback in `ThreeIrisBG.jsx` (variant A):
when motion is on, `u_time += dt` and `rotation.z += dt * 0.1`; then — in all
cases — `rotation.x/y += (pointer-target - rotation.x/y) * 0.075` with
`targetX = p.y * 0.12`, `targetY = p.x * 0.12` (pointer from the
`useViewportPointer` ref). -/
def lensFrameA (reduceMotion : Bool) (p : Pointer) (dt : ℚ) (s : SceneState) : SceneState :=
  let s1 := if !reduceMotion then
      { s with time := s.time + dt, lensRotZ := s.lensRotZ + dt * 0.1 }
    else s
  let targetX := p.2 * 0.12
  let targetY := p.1 * 0.12
  { s1 with
    lensRotX := s1.lensRotX + (targetX - s1.lensRotX) * 0.075
    lensRotY := s1.lensRotY + (targetY - s1.lensRotY) * 0.075 }

/-- `IrisLens`'s `useFrame` callback in the `ThreeIris.jsx` variant (B): same
shape as variant A, with the pointer read from the render-state's `pointer`
instead of the viewport ref; the mouse-look block sits outside the
`if (!reduceMotion)` guard in this variant too. -/
def lensFrameB (reduceMotion : Bool) (p : Pointer) (dt : ℚ) (s : SceneState) : SceneState :=
  let s1 := if !reduceMotion then
      { s with time := s.time + dt, lensRotZ := s.lensRotZ + dt * 0.1 }
    else s
  let targetX := p.2 * 0.12
  let targetY := p.1 * 0.12
  { s1 with
    lensRotX := s1.lensRotX + (targetX - s1.lensRotX) * 0.075
    lensRotY := s1.lensRotY + (targetY - s1.lensRotY) * 0.075 }

/-- One whole displayed frame of variant A: the host invokes both registered
`useFrame` callbacks (`NeuralRings`'s, then `IrisLens`'s) with the same `dt`. -/
def frameA (reduceMotion : Bool) (p : Pointer) (dt : ℚ) (s : SceneState) : SceneState :=
  lensFrameA reduceMotion p dt (ringsFrameA reduceMotion dt s)

/-- One whole displayed frame of variant B. -/
def frameB (reduceMotion : Bool) (p : Pointer) (dt : ℚ) (s : SceneState) : SceneState :=
  lensFrameB reduceMotion p dt (ringsFrameB reduceMotion dt s)

/-- `useReducedMotion` of `ThreeIrisBG.jsx` (variant A):
`if (typeof window === "undefined") return false;`
`return window.matchMedia?.("(prefers-reduced-motion: reduce)").matches || false;`
The environment is `none` when `window` is undefined, `some none` when `window`
exists but has no `matchMedia` (the optional chain then yields `undefined`, and
`undefined || false` is `false`), and `some (some m)` when the media query
answers `m`. -/
def useReducedMotionA : Option (Option Bool) → Bool
  | none => false
  | some none => false
  | some (some m) => m || false

/-- `useReducedMotion` of the `ThreeIris.jsx` variant (B):
`const prefers = typeof window !== "undefined" && window.matchMedia &&`
`window.matchMedia("(prefers-reduced-motion: reduce)").matches; return !!prefers;` -/
def useReducedMotionB : Option (Option Bool) → Bool
  | none => false
  | some none => false
  | some (some m) => !!m

/-- Run a sequence of variant-A frames: each event is a pointer sample paired
with the elapsed `dt` for that frame. -/
def runFramesA (reduceMotion : Bool) (evs : List (Pointer × ℚ)) (s : SceneState) : SceneState :=
  evs.foldl (fun st ev => frameA reduceMotion ev.1 ev.2 st) s

/-- Run a sequence of variant-B frames. -/
def runFramesB (reduceMotion : Bool) (evs : List (Pointer × ℚ)) (s : SceneState) : SceneState :=
  evs.foldl (fun st ev => frameB reduceMotion ev.1 ev.2 st) s

/-- The lens assembly's `rotation.x` after `n` frames starting from the all-zero
state, with the pointer held at `(px, 1)` (so `pointer.y = 1`). -/
def lensRotXIter (rm : Bool) (px dt : ℚ) (n : ℕ) : ℚ :=
  ((frameA rm (px, 1) dt)^[n] SceneState.init).lensRotX

/-- The `i`-th ring of the builder (defaulting outside `0..2`). -/
noncomputable def ringAt (i : ℕ) : RingSpec := buildRings.getD i default

/-- The angle expression `(num / den) * Math.PI * 2` with every JS arithmetic
operation composed with an abstract rounding function `round : ℝ → ℝ`.  IEEE
`+`, `*`, `/` are correctly rounded, i.e. each result is `round` applied to the
exact real result; `piD` stands for the double constant `Math.PI`. -/
noncomputable def fpT (round : ℝ → ℝ) (piD num den : ℝ) : ℝ :=
  round (round (round (num / den) * piD) * 2)

/-- Ring polyline vertex `j` of a ring of radius `R` in the rounded model:
`t = (j / 180) * Math.PI * 2`, position `(cos t * R, sin t * R)`; `fcos`/`fsin`
are the (deterministic) `Math.cos`/`Math.sin` of the host. -/
noncomputable def fpRingVertex (round fcos fsin : ℝ → ℝ) (piD R : ℝ) (j : ℕ) : ℝ × ℝ :=
  let t := fpT round piD (j : ℝ) 180
  (round (fcos t * R), round (fsin t * R))

/-- Marker `k` of a ring of radius `R` in the rounded model:
`t = (k / 12) * Math.PI * 2`, position `(cos t * R, sin t * R)`. -/
noncomputable def fpMarker (round fcos fsin : ℝ → ℝ) (piD R : ℝ) (k : ℕ) : ℝ × ℝ :=
  let t := fpT round piD (k : ℝ) 12
  (round (fcos t * R), round (fsin t * R))

/-! ## Helper lemmas -/

/-- Both variants' whole-frame steps agree on every input: the frame-driver
arithmetic of the two sources is identical. -/
theorem frameB_eq_frameA (rm : Bool) (p : Pointer) (dt : ℚ) (s : SceneState) :
    frameB rm p dt s = frameA rm p dt s := by
  cases rm <;> rfl

/-- With the reduced-motion preference set, one variant-A frame leaves the
shader time and both z-rotations untouched. -/
theorem frameA_true_frozen (p : Pointer) (dt : ℚ) (s : SceneState) :
    (frameA true p dt s).time = s.time ∧
    (frameA true p dt s).ringRotZ = s.ringRotZ ∧
    (frameA true p dt s).lensRotZ = s.lensRotZ := by
  refine ⟨rfl, rfl, rfl⟩

/-- The lens `rotation.x` update performed by a whole frame, for either value
of the motion preference. -/
theorem frameA_lensRotX (rm : Bool) (p : Pointer) (dt : ℚ) (s : SceneState) :
    (frameA rm p dt s).lensRotX = s.lensRotX + (p.2 * 0.12 - s.lensRotX) * 0.075 := by
  cases rm <;> rfl

/-- The lens `rotation.y` update performed by a whole frame. -/
theorem frameA_lensRotY (rm : Bool) (p : Pointer) (dt : ℚ) (s : SceneState) :
    (frameA rm p dt s).lensRotY = s.lensRotY + (p.1 * 0.12 - s.lensRotY) * 0.075 := by
  cases rm <;> rfl

/-- Unfolding one step of the smoothing iteration. -/
theorem lensRotXIter_succ (rm : Bool) (px dt : ℚ) (n : ℕ) :
    lensRotXIter rm px dt (n + 1) =
      lensRotXIter rm px dt n + (0.12 - lensRotXIter rm px dt n) * 0.075 := by
  unfold lensRotXIter
  rw [Function.iterate_succ_apply', frameA_lensRotX]
  norm_num

/-- The smoothing iterate never exceeds its target `0.12`. -/
theorem lensRotXIter_le (rm : Bool) (px dt : ℚ) (n : ℕ) :
    lensRotXIter rm px dt n ≤ 0.12 := by
  induction n with
  | zero => norm_num [lensRotXIter, SceneState.init]
  | succ n ih => rw [lensRotXIter_succ]; linarith

/-! ## Claims -/

/-- C9: both variants' `useReducedMotion` return `false` (motion not reduced)
whenever the host environment cannot answer the reduced-motion query — no
`window` object (`none`) or no media-query facility (`some none`) — rather
than failing. -/
theorem reducedMotion_defaults_false :
    useReducedMotionA none = false ∧ useReducedMotionA (some none) = false ∧
    useReducedMotionB none = false ∧ useReducedMotionB (some none) = false := by
  decide

/-- C3: with motion enabled (reduced-motion preference `false`), one frame of
either variant advances the shader time by exactly `dt`, the ring assembly's
`rotation.z` by exactly `dt * 0.03`, and the lens assembly's `rotation.z` by
exactly `dt * 0.1`. -/
theorem frame_motion_enabled_updates (p : Pointer) (dt : ℚ) (s : SceneState) :
    ((frameA false p dt s).time = s.time + dt ∧
     (frameA false p dt s).ringRotZ = s.ringRotZ + dt * 0.03 ∧
     (frameA false p dt s).lensRotZ = s.lensRotZ + dt * 0.1) ∧
    ((frameB false p dt s).time = s.time + dt ∧
     (frameB false p dt s).ringRotZ = s.ringRotZ + dt * 0.03 ∧
     (frameB false p dt s).lensRotZ = s.lensRotZ + dt * 0.1) := by
  refine ⟨⟨rfl, rfl, rfl⟩, ⟨rfl, rfl, rfl⟩⟩

/-- C4: with the reduced-motion preference set, any sequence of frames (each
with its own pointer sample and non-negative `dt`) leaves the shader time, the
ring assembly's `rotation.z`, and the lens assembly's `rotation.z` unchanged,
in both variants. -/
theorem reducedMotion_freezes (evs : List (Pointer × ℚ)) (s : SceneState)
    (hdt : ∀ ev ∈ evs, 0 ≤ ev.2) :
    ((runFramesA true evs s).time = s.time ∧
     (runFramesA true evs s).ringRotZ = s.ringRotZ ∧
     (runFramesA true evs s).lensRotZ = s.lensRotZ) ∧
    ((runFramesB true evs s).time = s.time ∧
     (runFramesB true evs s).ringRotZ = s.ringRotZ ∧
     (runFramesB true evs s).lensRotZ = s.lensRotZ) := by
  induction evs generalizing s with
  | nil => exact ⟨⟨rfl, rfl, rfl⟩, ⟨rfl, rfl, rfl⟩⟩
  | cons ev evs ih =>
    have htail : ∀ e ∈ evs, 0 ≤ e.2 := fun e he => hdt e (List.mem_cons_of_mem _ he)
    have hA := (ih (frameA true ev.1 ev.2 s) htail).1
    have hB := (ih (frameB true ev.1 ev.2 s) htail).2
    have hstepA := frameA_true_frozen ev.1 ev.2 s
    have hstepB := frameA_true_frozen ev.1 ev.2 s
    rw [frameB_eq_frameA] at hB
    constructor
    · refine ⟨?_, ?_, ?_⟩
      · exact (hA.1).trans hstepA.1
      · exact (hA.2.1).trans hstepA.2.1
      · exact (hA.2.2).trans hstepA.2.2
    · refine ⟨?_, ?_, ?_⟩
      · exact (hB.1).trans hstepB.1
      · exact (hB.2.1).trans hstepB.2.1
      · exact (hB.2.2).trans hstepB.2.2

/-- Witness for C4 at a concrete input: one frame with pointer `(0,0)` and
`dt = 1` from the zero state. -/
theorem reducedMotion_freezes_witness :
    (∀ ev ∈ [(((0 : ℚ), (0 : ℚ)), (1 : ℚ))], 0 ≤ ev.2) ∧
    (runFramesA true [((0, 0), 1)] SceneState.init).time = SceneState.init.time :=
  ⟨by norm_num, (reducedMotion_freezes [((0, 0), 1)] SceneState.init (by norm_num)).1.1⟩

/-- C6: from the all-zero state with motion enabled and the pointer fixed at
`(1, -1)`, three frames with `dt = 0.016` give `time = 0.048` and lens
`rotation.z = 0.0048` exactly, and the lens `rotation.x` has moved from `0`
toward `-0.12` by the factor `1 - (1 - 0.075)^3`, landing within `10⁻⁴` of
`-0.02505`. -/
theorem frames3_end_to_end :
    (runFramesA false (List.replicate 3 ((1, -1), 0.016)) SceneState.init).time = 0.048 ∧
    (runFramesA false (List.replicate 3 ((1, -1), 0.016)) SceneState.init).lensRotZ = 0.0048 ∧
    (runFramesA false (List.replicate 3 ((1, -1), 0.016)) SceneState.init).lensRotX =
      -0.12 * (1 - (1 - 0.075) ^ 3) ∧
    |(runFramesA false (List.replicate 3 ((1, -1), 0.016)) SceneState.init).lensRotX -
      (-0.02505)| ≤ 0.0001 := by
  have h : List.replicate 3 (((1 : ℚ), (-1 : ℚ)), (0.016 : ℚ)) =
      [((1, -1), 0.016), ((1, -1), 0.016), ((1, -1), 0.016)] := rfl
  rw [h]
  norm_num [runFramesA, frameA, ringsFrameA, lensFrameA, SceneState.init, abs_le]

/-- C8 counterexample: the claim that one variant gates the pointer-follow
smoothing on the motion preference is false — with the reduced-motion
preference set, a frame with the pointer at `(0, 1)` still moves the lens
`rotation.x` in BOTH variants. -/
theorem pointer_follow_ungated_cex :
    (frameA true (0, 1) 0.016 SceneState.init).lensRotX ≠ SceneState.init.lensRotX ∧
    (frameB true (0, 1) 0.016 SceneState.init).lensRotX ≠ SceneState.init.lensRotX := by
  norm_num [frameA, frameB, ringsFrameA, ringsFrameB, lensFrameA, lensFrameB, SceneState.init]

/-- C8 (amended): the two variants do NOT differ here — in both, the lens
pointer-follow smoothing `rotation.x/y += (target - rotation.x/y) * 0.075`
is applied on every frame regardless of the motion preference, and the two
frame drivers compute identical state updates on all inputs. -/
theorem pointer_follow_always_applied (rm : Bool) (p : Pointer) (dt : ℚ) (s : SceneState) :
    (frameA rm p dt s).lensRotX = s.lensRotX + (p.2 * 0.12 - s.lensRotX) * 0.075 ∧
    (frameA rm p dt s).lensRotY = s.lensRotY + (p.1 * 0.12 - s.lensRotY) * 0.075 ∧
    (frameB rm p dt s).lensRotX = s.lensRotX + (p.2 * 0.12 - s.lensRotX) * 0.075 ∧
    (frameB rm p dt s).lensRotY = s.lensRotY + (p.1 * 0.12 - s.lensRotY) * 0.075 ∧
    frameB rm p dt s = frameA rm p dt s := by
  refine ⟨frameA_lensRotX rm p dt s, frameA_lensRotY rm p dt s, ?_, ?_, frameB_eq_frameA rm p dt s⟩
  · rw [frameB_eq_frameA]; exact frameA_lensRotX rm p dt s
  · rw [frameB_eq_frameA]; exact frameA_lensRotY rm p dt s

/-- C5: with the pointer's `y` held at `1` and the lens `rotation.x` starting
at `0`, the smoothing `rotationX += (0.12 - rotationX) * 0.075` is
non-decreasing at every step, never exceeds `0.12`, and closes the gap to the
target by the factor `1 - 0.075` each frame. -/
theorem pointer_smoothing_monotone (rm : Bool) (px dt : ℚ) (n : ℕ) :
    lensRotXIter rm px dt n ≤ lensRotXIter rm px dt (n + 1) ∧
    lensRotXIter rm px dt n ≤ 0.12 ∧
    0.12 - lensRotXIter rm px dt (n + 1) = (1 - 0.075) * (0.12 - lensRotXIter rm px dt n) := by
  have hle := lensRotXIter_le rm px dt n
  refine ⟨?_, hle, ?_⟩
  · rw [lensRotXIter_succ]; linarith
  · rw [lensRotXIter_succ]; ring

/-- Rewriting the alpha edge toward a positive denominator. -/
theorem alphaOf_eq (r : ℝ) :
    alphaOf r =
      clamp ((0.99 - r) / 0.03) 0 1 * clamp ((0.99 - r) / 0.03) 0 1 *
        (3 - 2 * clamp ((0.99 - r) / 0.03) 0 1) := by
  have h : (r - 0.99) / (0.96 - 0.99) = (0.99 - r) / 0.03 := by
    rw [div_eq_div_iff (by norm_num) (by norm_num)]
    ring
  simp only [alphaOf, smoothstep, h]

/-- C7: the shader's alpha `smoothstep(0.99, 0.96, r)` is `1` for every
`r ≤ 0.96`, vanishes exactly when `r ≥ 0.99`, and is strictly between `0` and
`1` at `r = 0.975`. -/
theorem alpha_edge_profile :
    (∀ r : ℝ, r ≤ 0.96 → alphaOf r = 1) ∧
    (∀ r : ℝ, alphaOf r = 0 ↔ 0.99 ≤ r) ∧
    0 < alphaOf 0.975 ∧ alphaOf 0.975 < 1 := by
  have h975 : alphaOf 0.975 = 0.5 := by
    rw [alphaOf_eq]
    norm_num [clamp, max_def, min_def]
  refine ⟨?_, ?_, by rw [h975]; norm_num, by rw [h975]; norm_num⟩
  · intro r hr
    rw [alphaOf_eq]
    have h1 : (1 : ℝ) ≤ (0.99 - r) / 0.03 := by
      rw [le_div_iff₀ (by norm_num : (0 : ℝ) < 0.03)]
      linarith
    unfold clamp
    rw [max_eq_left (le_trans zero_le_one h1), min_eq_right h1]
    norm_num
  · intro r
    rw [alphaOf_eq]
    unfold clamp
    constructor
    · intro h
      by_contra hc
      push_neg at hc
      have hupos : 0 < (0.99 - r) / 0.03 := div_pos (by linarith) (by norm_num)
      have htpos : 0 < min (max ((0.99 - r) / 0.03) 0) 1 :=
        lt_min (lt_of_lt_of_le hupos (le_max_left _ _)) one_pos
      have htle : min (max ((0.99 - r) / 0.03) 0) 1 ≤ 1 := min_le_right _ _
      nlinarith
    · intro h
      have hune : (0.99 - r) / 0.03 ≤ 0 :=
        div_nonpos_iff.mpr (Or.inr ⟨by linarith, by norm_num⟩)
      rw [max_eq_right hune, min_eq_left zero_le_one]
      ring

/-- Witness for C7 at concrete radii `0.5` and `1`. -/
theorem alpha_edge_profile_witness :
    alphaOf 0.5 = 1 ∧ (alphaOf 1 = 0 ↔ (0.99 : ℝ) ≤ 1) :=
  ⟨alpha_edge_profile.1 0.5 (by norm_num), alpha_edge_profile.2.1 1⟩

/-- C1: on all of `[0,1]²` and for every accumulated time and every choice of
the three color uniforms, the fragment shader of the source computes exactly
the spec's reference per-pixel color function. -/
theorem shader_matches_spec (t : ℝ) (pc sc gc : Vec3) (uv : ℝ × ℝ)
    (h0 : 0 ≤ uv.1) (h1 : uv.1 ≤ 1) (h2 : 0 ≤ uv.2) (h3 : uv.2 ≤ 1) :
    shaderFrag t pc sc gc uv = specFrag t pc sc gc uv := by
  unfold shaderFrag specFrag
  simp only [mixV, lerpV, mix, lerp, scaleV, Prod.mk.injEq, Vec3.mk.injEq]
  refine ⟨⟨?_, ?_, ?_⟩, trivial⟩ <;> ring_nf

/-- Witness for C1 at `uv = (1/2, 1/2)`, `t = 0`, concrete colors. -/
theorem shader_matches_spec_witness :
    shaderFrag 0 ⟨1, 0, 0⟩ ⟨0, 1, 0⟩ ⟨1, 1, 0⟩ (0.5, 0.5) =
      specFrag 0 ⟨1, 0, 0⟩ ⟨0, 1, 0⟩ ⟨1, 1, 0⟩ (0.5, 0.5) :=
  shader_matches_spec 0 ⟨1, 0, 0⟩ ⟨0, 1, 0⟩ ⟨1, 1, 0⟩ (0.5, 0.5)
    (by norm_num) (by norm_num) (by norm_num) (by norm_num)

/-- The builder's `i`-th ring, for `i < 3`, is the loop body at `i`. -/
theorem ringAt_eq (i : ℕ) (h : i < 3) : ringAt i = mkRing i := by
  simp [ringAt, buildRings, List.getD_eq_getElem?_getD, List.getElem?_map,
    List.getElem?_range, h]

/-- Vertex `j ≤ 180` of the loop body at `i`. -/
theorem mkRing_point (i j : ℕ) (h : j < 181) :
    (mkRing i).points[j]? =
      some ⟨Real.cos (((j : ℝ) / 180) * Real.pi * 2) * (0.9 + (i : ℝ) * 0.22),
            Real.sin (((j : ℝ) / 180) * Real.pi * 2) * (0.9 + (i : ℝ) * 0.22), -0.2⟩ := by
  simp only [mkRing, List.getElem?_map, List.getElem?_range h]
  rfl

/-- The first and last vertex of every ring coincide (`cos 0 = cos 2π`,
`sin 0 = sin 2π`). -/
theorem mkRing_closed (i : ℕ) :
    (mkRing i).points[0]? = (mkRing i).points[180]? := by
  rw [mkRing_point i 0 (by norm_num), mkRing_point i 180 (by norm_num)]
  have ht0 : (((0 : ℕ) : ℝ) / 180) * Real.pi * 2 = 0 := by norm_num
  have ht180 : (((180 : ℕ) : ℝ) / 180) * Real.pi * 2 = 2 * Real.pi := by
    push_cast
    rw [div_self (by norm_num : (180 : ℝ) ≠ 0)]
    ring
  rw [ht0, ht180, Real.cos_zero, Real.sin_zero, Real.cos_two_pi, Real.sin_two_pi]

/-- Every vertex of every ring sits at depth `z = -0.2`. -/
theorem mkRing_depth (i : ℕ) :
    (mkRing i).points.map Vec3.z = List.replicate 181 (-0.2) := by
  rw [List.eq_replicate_iff]
  refine ⟨by simp only [mkRing, List.length_map, List.length_range], ?_⟩
  intro b hb
  simp only [mkRing, List.map_map, List.mem_map, List.mem_range] at hb
  obtain ⟨j, _, rfl⟩ := hb
  rfl

/-- C2: the Ring Geometry Builder returns exactly 3 rings whose radii are
within `10⁻⁶` of `0.90`, `1.12`, `1.34`; each ring's polyline has exactly 181
points, closes up (`point[0] = point[180]`), and lies at depth `z = -0.2`.
(Determinism is definitional: `buildRings` is a pure function of its constant
inputs.) -/
theorem ring_builder_spec :
    buildRings.length = 3 ∧
    (|(ringAt 0).radius - 0.9| ≤ 1e-6 ∧ |(ringAt 1).radius - 1.12| ≤ 1e-6 ∧
     |(ringAt 2).radius - 1.34| ≤ 1e-6) ∧
    ((ringAt 0).points.length = 181 ∧ (ringAt 1).points.length = 181 ∧
     (ringAt 2).points.length = 181) ∧
    ((ringAt 0).points[0]? = (ringAt 0).points[180]? ∧
     (ringAt 1).points[0]? = (ringAt 1).points[180]? ∧
     (ringAt 2).points[0]? = (ringAt 2).points[180]?) ∧
    ((ringAt 0).points.map Vec3.z = List.replicate 181 (-0.2) ∧
     (ringAt 1).points.map Vec3.z = List.replicate 181 (-0.2) ∧
     (ringAt 2).points.map Vec3.z = List.replicate 181 (-0.2)) := by
  rw [ringAt_eq 0 (by norm_num), ringAt_eq 1 (by norm_num), ringAt_eq 2 (by norm_num)]
  have hlen : ∀ i : ℕ, (mkRing i).points.length = 181 := fun i => by
    simp only [mkRing, List.length_map, List.length_range]
  refine ⟨by simp only [buildRings, List.length_map, List.length_range], ⟨?_, ?_, ?_⟩,
    ⟨hlen 0, hlen 1, hlen 2⟩,
    ⟨mkRing_closed 0, mkRing_closed 1, mkRing_closed 2⟩,
    ⟨mkRing_depth 0, mkRing_depth 1, mkRing_depth 2⟩⟩
  all_goals simp only [mkRing]
  all_goals norm_num

/-- C10: in the rounded floating-point model — every JS arithmetic operation
is an arbitrary-but-fixed rounding of its exact real result, and
`Math.cos`/`Math.sin` are arbitrary-but-fixed functions — marker `k` of a ring
coincides exactly, coordinate for coordinate, with polyline vertex `15·k` of
the same ring, because `15k/180` and `k/12` are the same exact rational, so
the correctly-rounded quotients agree and every later operation receives
identical inputs.  Bit-for-bit equality of the doubles follows since every
IEEE operation is a deterministic function of the values proved equal here. -/
theorem marker_on_ring (round fcos fsin : ℝ → ℝ) (piD R : ℝ) (k : ℕ) (hk : k < 12) :
    fpMarker round fcos fsin piD R k = fpRingVertex round fcos fsin piD R (15 * k) := by
  have h : 15 * (k : ℝ) / 180 = (k : ℝ) / 12 := by ring
  simp only [fpMarker, fpRingVertex, fpT]
  push_cast
  rw [h]

/-- Witness for C10 at `k = 3` (vertex `45`), with identity rounding and the
trigonometric functions taken literally. -/
theorem marker_on_ring_witness :
    (3 : ℕ) < 12 ∧
    fpMarker id id id Real.pi 0.9 3 = fpRingVertex id id id Real.pi 0.9 45 :=
  ⟨by norm_num, marker_on_ring id id id Real.pi 0.9 3 (by norm_num)⟩

end VerseStudio
